import Mathlib

/-!
Verification of the token-bucket rate limiter and the resilient request
executor of the itch.io API client.

The definitions below are a shallow embedding of the JavaScript sources
`src/integrations/itchio/rate-limiter.js`, `src/integrations/itchio/errors.js`
and the `ItchioClient` class (`_executeWithRetry`, `_parseResponse`,
`_getRetryAfter`, `_shouldNotRetry`, `_wrapError`, `cancelRequest`).
JavaScript numbers are modelled as exact rationals, `Date.now()` timestamps are
explicit rational parameters, and the asynchronous control flow is modelled as
an explicit event trace (register/fetch/sleep/unregister events for the
executor, timed acquire/fire events for the limiter).
-/

/-- State of one `RateLimiter` instance, mirroring the fields set by the
constructor of `rate-limiter.js`: `maxTokens`, `windowMs`, `tokens`,
`lastRefill`, `refillRate = maxRequests / windowMs`, the waiter `queue`
(each entry records the scheduled fire time and the enqueue time of one
`setTimeout` waiter), and the `stats` record. -/
structure RateLimiter where
  maxTokens : ℚ
  windowMs : ℚ
  tokens : ℚ
  lastRefill : ℚ
  refillRate : ℚ
  queue : List (ℚ × ℚ)
  totalRequests : ℕ
  totalWaitTime : ℚ
  maxWaitTime : ℚ
  rejectedRequests : ℕ
deriving DecidableEq, Repr

/-- The `RateLimiter(maxRequests, windowMs)` constructor, with `now` the value
of `Date.now()` at construction time. -/
def RateLimiter.init (maxRequests windowMs now : ℚ) : RateLimiter :=
  { maxTokens := maxRequests
    windowMs := windowMs
    tokens := maxRequests
    lastRefill := now
    refillRate := maxRequests / windowMs
    queue := []
    totalRequests := 0
    totalWaitTime := 0
    maxWaitTime := 0
    rejectedRequests := 0 }

/-- `_refillTokens()`: add `timePassed * refillRate` tokens, capped at
`maxTokens`, and record the refill time. -/
def RateLimiter.refillTokens (now : ℚ) (s : RateLimiter) : RateLimiter :=
  { s with
    tokens := min s.maxTokens (s.tokens + (now - s.lastRefill) * s.refillRate)
    lastRefill := now }

/-- `_updateStats(waitTime)`. -/
def RateLimiter.updateStats (waitTime : ℚ) (s : RateLimiter) : RateLimiter :=
  { s with
    totalRequests := s.totalRequests + 1
    totalWaitTime := s.totalWaitTime + waitTime
    maxWaitTime := max s.maxWaitTime waitTime }

/-- `_getTimeUntilNextToken()`: `0` if a token is available, else
`Math.ceil((1 - tokens) / refillRate)`. -/
def RateLimiter.timeUntilNextToken (s : RateLimiter) : ℚ :=
  if 1 ≤ s.tokens then 0 else ((⌈(1 - s.tokens) / s.refillRate⌉ : ℤ) : ℚ)

/-- `tryAcquire()`: refill, then either consume a token (returning `true`) or
bump the rejection counter (returning `false`). -/
def RateLimiter.tryAcquire (now : ℚ) (s : RateLimiter) : RateLimiter × Bool :=
  let s1 := s.refillTokens now
  if 1 ≤ s1.tokens then
    (RateLimiter.updateStats 0 { s1 with tokens := s1.tokens - 1 }, true)
  else
    ({ s1 with rejectedRequests := s1.rejectedRequests + 1 }, false)

/-- `getStats()` snapshot shape. -/
structure StatsSnapshot where
  availableTokens : ℤ
  maxTokens : ℚ
  queueLength : ℕ
  totalRequests : ℕ
  avgWaitTime : ℚ
  maxWaitTime : ℚ
  rejectedRequests : ℕ
  utilizationRate : ℚ
deriving DecidableEq, Repr

/-- `getStats()`: a pure read of the limiter state.  Note that the source
method neither reads the clock nor calls `_refillTokens`; it only computes
derived values (`Math.floor(this.tokens)`, and the two guarded ratios). -/
def RateLimiter.getStats (s : RateLimiter) : StatsSnapshot :=
  { availableTokens := ⌊s.tokens⌋
    maxTokens := s.maxTokens
    queueLength := s.queue.length
    totalRequests := s.totalRequests
    avgWaitTime :=
      if 0 < s.totalRequests then s.totalWaitTime / (s.totalRequests : ℚ) else 0
    maxWaitTime := s.maxWaitTime
    rejectedRequests := s.rejectedRequests
    utilizationRate :=
      if 0 < s.totalRequests then (s.maxTokens - s.tokens) / s.maxTokens * 100 else 0 }

/-- One call of `getStats()` viewed as a state transformer: it returns the
snapshot and leaves the limiter untouched.  The `now` parameter is the wall
clock at call time; the source method ignores the clock entirely. -/
def RateLimiter.getStatsCall (_now : ℚ) (s : RateLimiter) :
    StatsSnapshot × RateLimiter :=
  (s.getStats, s)

/-- Timed events of one limiter instance.  `tryA t` is a `tryAcquire()` call at
time `t`; `acqA t` is an `acquire()` call at time `t` (granting immediately or
enqueueing a `setTimeout` waiter); `fire t st` is the firing, at time `t`, of
the waiter that was enqueued at time `st` (the `setTimeout` callback of
`_waitForToken`). -/
inductive LEv where
  | tryA (t : ℚ)
  | acqA (t : ℚ)
  | fire (t : ℚ) (st : ℚ)
deriving DecidableEq, Repr

/-- One limiter event.  Returns the new state and the grant time if the event
granted a token.  `acqA` follows `acquire()`: refill, consume immediately when
`tokens >= 1`, otherwise schedule a waiter `_getTimeUntilNextToken()` ms in the
future.  `fire` follows the `setTimeout` callback of `_waitForToken`: refill,
remove the timer from the queue, then decrement `tokens` unconditionally, and
account the wait time. -/
def lstep (e : LEv) (s : RateLimiter) : RateLimiter × Option ℚ :=
  match e with
  | .tryA t =>
      let r := s.tryAcquire t
      (r.1, if r.2 then some t else none)
  | .acqA t =>
      let s1 := s.refillTokens t
      if 1 ≤ s1.tokens then
        (RateLimiter.updateStats 0 { s1 with tokens := s1.tokens - 1 }, some t)
      else
        ({ s1 with queue := s1.queue ++ [(t + s1.timeUntilNextToken, t)] }, none)
  | .fire t st =>
      let s1 := s.refillTokens t
      let s2 := { s1 with
                  tokens := s1.tokens - 1
                  queue := s1.queue.eraseP (fun p => decide (p = (t, st))) }
      (RateLimiter.updateStats (t - st) s2, some t)

/-- Run a list of limiter events, collecting the grant times in order. -/
def runL : RateLimiter → List LEv → RateLimiter × List ℚ
  | s, [] => (s, [])
  | s, e :: rest =>
      let r := lstep e s
      let rr := runL r.1 rest
      (rr.1, (match r.2 with | some t => [t] | none => []) ++ rr.2)

/-- Chronological, sequential well-formedness of a limiter trace: event times
never precede the last refill; a new `tryAcquire`/`acquire` call only happens
while no waiter is pending; a `fire` event is exactly the firing of the single
pending waiter at its scheduled time.  This captures callers that await each
`acquire()` before issuing the next call. -/
def WFb : RateLimiter → List LEv → Bool
  | _, [] => true
  | s, .tryA t :: rest =>
      decide (s.queue = []) && decide (s.lastRefill ≤ t) &&
        WFb (lstep (.tryA t) s).1 rest
  | s, .acqA t :: rest =>
      decide (s.queue = []) && decide (s.lastRefill ≤ t) &&
        WFb (lstep (.acqA t) s).1 rest
  | s, .fire t st :: rest =>
      decide (s.queue = [(t, st)]) && decide (s.lastRefill ≤ t) &&
        WFb (lstep (.fire t st) s).1 rest

/-- Number of grants whose time lies in the closed interval `[a, b]`. -/
def countWindow (gs : List ℚ) (a b : ℚ) : ℕ :=
  (gs.filter (fun t => decide (a ≤ t) && decide (t ≤ b))).length

/-- Helper simp set for evaluating concrete limiter runs. -/
theorem runL_nil (s : RateLimiter) : runL s [] = (s, []) := rfl

/-- Unfolding of `runL` on a cons cell. -/
theorem runL_cons (s : RateLimiter) (e : LEv) (rest : List LEv) :
    runL s (e :: rest) =
      ((runL (lstep e s).1 rest).1,
        (match (lstep e s).2 with | some t => [t] | none => []) ++
          (runL (lstep e s).1 rest).2) := rfl

/-- C1 counterexample.  The claim says the number of grants in any rolling
`windowMs`-length interval never exceeds `capacity`.  For a
`RateLimiter(2, 10)` created at time 0, the well-formed call sequence
`acquire()` at t=0, `acquire()` at t=0, `acquire()` at t=5 is granted
immediately all three times (the bucket starts full with 2 tokens and refills
5 * (2/10) = 1 token by t=5), so the closed interval [0, 10] of length
`windowMs = 10` contains 3 > 2 grants.  The token bucket admits an initial
burst of `capacity` on top of the refill stream, so the rolling-window rate is
bounded by `2 * capacity`, not by `capacity`. -/
theorem c1_counterexample :
    WFb (RateLimiter.init 2 10 0) [LEv.acqA 0, LEv.acqA 0, LEv.acqA 5] = true ∧
    (runL (RateLimiter.init 2 10 0) [LEv.acqA 0, LEv.acqA 0, LEv.acqA 5]).2 = [0, 0, 5] ∧
    ¬ countWindow
        (runL (RateLimiter.init 2 10 0) [LEv.acqA 0, LEv.acqA 0, LEv.acqA 5]).2
        0 (0 + 10) ≤ 2 := by
  refine ⟨?_, ?_, ?_⟩ <;>
    norm_num [WFb, runL, lstep, countWindow, RateLimiter.init,
      RateLimiter.refillTokens, RateLimiter.updateStats, RateLimiter.tryAcquire,
      RateLimiter.timeUntilNextToken, List.filter]

/-- C2.  The spec invariant `0 ≤ tokens` fails on the code.  For a
`RateLimiter(1, 1000)` created at time 0: one `acquire()` at t=0 is granted
immediately (tokens drops to 0); two further `acquire()` calls at t=0 each
enqueue a waiter, and both compute the same `setTimeout` delay
`Math.ceil((1 - 0) / 0.001) = 1000` from the same observed state, so both
timers fire at t=1000.  The first firing refills 1 token and consumes it; the
second firing refills nothing and still executes `this.tokens -= 1`
unconditionally, driving `tokens` to -1.  This run evaluates the embedded
semantics of `acquire`/`_waitForToken` exactly and exhibits the negative
token count. -/
theorem c2_tokens_go_negative :
    ((runL (RateLimiter.init 1 1000 0) [LEv.acqA 0, LEv.acqA 0, LEv.acqA 0]).1.queue.map
        (fun p => p.1)) = [1000, 1000] ∧
    (runL (RateLimiter.init 1 1000 0)
        [LEv.acqA 0, LEv.acqA 0, LEv.acqA 0, LEv.fire 1000 0, LEv.fire 1000 0]).1.tokens
      = -1 ∧
    ¬ (0 ≤ (runL (RateLimiter.init 1 1000 0)
        [LEv.acqA 0, LEv.acqA 0, LEv.acqA 0, LEv.fire 1000 0, LEv.fire 1000 0]).1.tokens) := by
  refine ⟨?_, ?_, ?_⟩ <;>
    norm_num [runL, lstep, RateLimiter.init, RateLimiter.refillTokens,
      RateLimiter.updateStats, RateLimiter.tryAcquire,
      RateLimiter.timeUntilNextToken, List.eraseP]

/-- C9.  `getStats()` mutates nothing and reads no clock, so two successive
calls with no intervening `acquire`/`tryAcquire` report the same
`availableTokens`, whatever wall-clock times the two calls happen at. -/
theorem c9_getStats_idempotent (s : RateLimiter) (t1 t2 : ℚ) :
    ((RateLimiter.getStatsCall t2 (RateLimiter.getStatsCall t1 s).2).1).availableTokens
      = ((RateLimiter.getStatsCall t1 s).1).availableTokens := rfl

/-- C10.  When no acquisition was ever granted (`totalRequests = 0`),
`getStats()` reports `avgWaitTime = 0` and `utilizationRate = 0`: both ratios
are guarded by the `totalRequests > 0` conditional, so no division by zero
happens and no undefined value is produced. -/
theorem c10_zero_requests_stats (s : RateLimiter) (h : s.totalRequests = 0) :
    (RateLimiter.getStats s).avgWaitTime = 0 ∧
    (RateLimiter.getStats s).utilizationRate = 0 := by
  simp [RateLimiter.getStats, h]

/-- C10 witness: a freshly constructed limiter has `totalRequests = 0` and its
stats snapshot reports zero average wait and zero utilization. -/
theorem c10_zero_requests_stats_witness :
    (RateLimiter.init 60 60000 0).totalRequests = 0 ∧
    ((RateLimiter.getStats (RateLimiter.init 60 60000 0)).avgWaitTime = 0 ∧
      (RateLimiter.getStats (RateLimiter.init 60 60000 0)).utilizationRate = 0) :=
  ⟨rfl, c10_zero_requests_stats _ rfl⟩

/-- Parsed response body.  `jsonB es p` is a JSON body whose `errors` field is
`es` (`none` when the field is absent, `some es` when present — in JavaScript
an empty `errors` array is still truthy) and whose remaining payload is
abstracted as `p`; `textB` is a non-JSON body read as text. -/
inductive RespBody where
  | jsonB (errors : Option (List String)) (payload : String)
  | textB (s : String)
deriving DecidableEq, Repr

/-- Value of the `retry-after` response header: an integer-seconds form, an
HTTP date (as epoch milliseconds), a present-but-unparseable value, or absent
(`Option.none` at the use site). -/
inductive RetryAfterVal where
  | seconds (n : ℕ)
  | httpDate (epochMs : ℚ)
  | malformed
deriving DecidableEq, Repr

/-- Transport-level response, already decoded: HTTP status, optional
`retry-after` header and the body as the client would parse it from the
content type. -/
structure HttpResponse where
  status : ℕ
  retryAfter : Option RetryAfterVal
  body : RespBody
deriving DecidableEq, Repr

/-- The `response.ok` flag of fetch: status in the range 200-299. -/
def HttpResponse.ok (r : HttpResponse) : Bool :=
  decide (200 ≤ r.status) && decide (r.status < 300)

/-- Closed variant set for the error classes of `errors.js` that the client's
request path can produce.  `rateLimitError` is constructed as
`ItchioRateLimitError(message, response, retryAfter)`, which sets
`statusCode = 429`; it is an `instanceof ItchioApiError` in the source's
inheritance hierarchy. -/
inductive ItchioErr where
  | apiError (message : String) (statusCode : ℕ) (responseData : Option RespBody)
  | rateLimitError (message : String) (retryAfter : ℚ)
  | networkError (message : String)
  | timeoutError (message : String)
deriving DecidableEq, Repr

/-- The `instanceof ItchioApiError` test (rate-limit errors inherit from
`ItchioApiError`). -/
def ItchioErr.isApiInstance : ItchioErr → Bool
  | .apiError _ _ _ => true
  | .rateLimitError _ _ => true
  | _ => false

/-- The `statusCode` property (429 for rate-limit errors, 0 stands for the
absent property on network/timeout errors, never consulted on those). -/
def ItchioErr.statusCode : ItchioErr → ℕ
  | .apiError _ s _ => s
  | .rateLimitError _ _ => 429
  | _ => 0

/-- The `message` property. -/
def ItchioErr.message : ItchioErr → String
  | .apiError m _ _ => m
  | .rateLimitError m _ => m
  | .networkError m => m
  | .timeoutError m => m

/-- The `isServerError()` method of `ItchioApiError`: 5xx status. -/
def ItchioErr.isServerError (e : ItchioErr) : Bool :=
  e.isApiInstance && decide (500 ≤ e.statusCode) && decide (e.statusCode < 600)

/-- The `isRetryableError` classification function of `errors.js`: network,
timeout and rate-limit errors are retryable, as are server-error (5xx)
`ApiError`s and the specific client statuses 408 and 429. -/
def isRetryableError : ItchioErr → Bool
  | .networkError _ => true
  | .timeoutError _ => true
  | .rateLimitError _ _ => true
  | .apiError _ s _ =>
      (decide (500 ≤ s) && decide (s < 600)) || decide (s = 408) || decide (s = 429)

/-- The `errors` field lookup `data.errors` on a parsed body. -/
def RespBody.errorsField : RespBody → Option (List String)
  | .jsonB es _ => es
  | .textB _ => none

/-- Message chosen by `_parseResponse` for a non-ok response:
`data.errors ? data.errors.join(', ') : 'HTTP <status>'` (a present-but-empty
`errors` array is truthy in JavaScript and joins to the empty string). -/
def apiErrMsg (b : RespBody) (status : ℕ) : String :=
  match b.errorsField with
  | some es => String.intercalate ", " es
  | none => "HTTP " ++ toString status

/-- `_parseResponse(response)`: throw an `ItchioApiError` carrying the status
and parsed body when the status is not ok, or when the body itself carries a
non-empty `errors` array even on an ok status; otherwise return the parsed
body. -/
def parseResponse (r : HttpResponse) : Except ItchioErr RespBody :=
  if r.ok = false then
    .error (.apiError (apiErrMsg r.body r.status) r.status (some r.body))
  else
    match r.body.errorsField with
    | some es =>
        if 0 < es.length then
          .error (.apiError (String.intercalate ", " es) r.status (some r.body))
        else
          .ok r.body
    | none => .ok r.body

/-- Client configuration options used by the retry loop (`DEFAULT_CONFIG`
fields `timeout`, `maxRetries`, `retryDelay`, `retryMultiplier`,
`maxRetryDelay`). -/
structure ClientConfig where
  timeout : ℚ
  maxRetries : ℕ
  retryDelay : ℚ
  retryMultiplier : ℚ
  maxRetryDelay : ℚ
deriving DecidableEq, Repr

/-- `_getRetryAfter(response)`: integer seconds are converted to milliseconds;
an HTTP date yields `max(0, date - Date.now())`; a missing or unparseable
header falls back to the configured base `config.retryDelay`. -/
def getRetryAfterMs (cfg : ClientConfig) (now : ℚ) (r : HttpResponse) : ℚ :=
  match r.retryAfter with
  | some (.seconds n) => (n : ℚ) * 1000
  | some (.httpDate d) => max 0 (d - now)
  | some .malformed => cfg.retryDelay
  | none => cfg.retryDelay

/-- Outcome of one `fetch` attempt: a settled response, an `AbortError`
rejection (the merged abort signal fired — per-attempt timeout or external
cancellation), or another rejection (network failure). -/
inductive FetchResult where
  | ok (r : HttpResponse)
  | abortErr
  | netErr (msg : String)
deriving DecidableEq, Repr

/-- An error as caught by the retry loop's catch block: an `AbortError`, a
generic fetch rejection, or a thrown typed error (`ItchioApiError` from
`_parseResponse`, or the `ItchioRateLimitError` thrown on final 429). -/
inductive CaughtErr where
  | abortE
  | fetchE (msg : String)
  | thrownE (e : ItchioErr)
deriving DecidableEq, Repr

/-- `_shouldNotRetry(error, attempt)`: stop when no retries remain; never
retry an `AbortError`; never retry an `ItchioApiError` whose status is a 4xx
other than 429. -/
def shouldNotRetry (maxRetries : ℕ) (e : CaughtErr) (attempt : ℕ) : Bool :=
  if maxRetries ≤ attempt then true
  else
    match e with
    | .abortE => true
    | .thrownE err =>
        if err.isApiInstance then
          decide (400 ≤ err.statusCode) && decide (err.statusCode < 500) &&
            decide (err.statusCode ≠ 429)
        else false
    | .fetchE _ => false

/-- `_wrapError(error)`: typed API/rate-limit errors pass through; an
`AbortError` becomes `ItchioTimeoutError('Request timeout')`; anything else
becomes an `ItchioNetworkError` with the original message. -/
def wrapError : CaughtErr → ItchioErr
  | .thrownE err => if err.isApiInstance then err else .networkError err.message
  | .abortE => .timeoutError "Request timeout"
  | .fetchE m => .networkError m

/-- Observable events of one `request()` call: the single limiter
acquisition, and per attempt the registration of the abort controller in
`activeRequests`, the fetch itself, the 429 retry-after sleep (which happens
inside the try block, before the finally), the unconditional removal of the
handle in the finally block, and the backoff sleep of the catch block (which
happens after the finally has already removed the handle). -/
inductive REv where
  | acquireToken
  | register
  | fetchAttempt (n : ℕ)
  | unregister
  | sleepRetryAfter (d : ℚ)
  | sleepBackoff (d : ℚ)
deriving DecidableEq, Repr

/-- Catch-block tail of one failed attempt: either terminate with the wrapped
error, or sleep the current backoff delay, double it (capped at
`maxRetryDelay`) and continue with the recursion `rec` standing for the rest
of the loop. -/
def afterCatch (cfg : ClientConfig) (e : CaughtErr) (attempt : ℕ) (delay : ℚ)
    (rec : ℚ → Option CaughtErr → List REv × Except ItchioErr RespBody) :
    List REv × Except ItchioErr RespBody :=
  if shouldNotRetry cfg.maxRetries e attempt then
    ([], .error (wrapError e))
  else
    let next := rec (min (delay * cfg.retryMultiplier) cfg.maxRetryDelay) (some e)
    (REv.sleepBackoff delay :: next.1, next.2)

/-- The retry loop `_executeWithRetry`, recursing on the remaining number of
loop iterations (`fuel`); `attempt` is the 0-based attempt counter, `delay`
the current exponential-backoff value, `lastE` the `lastError` variable, and
`times n` the value of `Date.now()` while handling attempt `n`'s response.
The fuel-0 fallback corresponds to the unreachable `throw` after the loop. -/
def execLoop (cfg : ClientConfig) (transport : ℕ → FetchResult) (times : ℕ → ℚ) :
    ℕ → ℕ → ℚ → Option CaughtErr → List REv × Except ItchioErr RespBody
  | 0, _, _, lastE =>
      ([], .error (match lastE with
                   | some e => wrapError e
                   | none => .networkError "retries exhausted"))
  | fuel + 1, attempt, delay, lastE =>
      match transport attempt with
      | .ok r =>
          if r.status = 429 then
            let ra := getRetryAfterMs cfg (times attempt) r
            if attempt < cfg.maxRetries then
              let next := execLoop cfg transport times fuel (attempt + 1) delay lastE
              (REv.register :: REv.fetchAttempt attempt :: REv.sleepRetryAfter ra ::
                REv.unregister :: next.1, next.2)
            else
              let tail := afterCatch cfg
                (.thrownE (.rateLimitError "Rate limit exceeded" ra)) attempt delay
                (execLoop cfg transport times fuel (attempt + 1))
              (REv.register :: REv.fetchAttempt attempt :: REv.unregister :: tail.1,
                tail.2)
          else
            match parseResponse r with
            | .ok data =>
                ([REv.register, REv.fetchAttempt attempt, REv.unregister], .ok data)
            | .error err =>
                let tail := afterCatch cfg (.thrownE err) attempt delay
                  (execLoop cfg transport times fuel (attempt + 1))
                (REv.register :: REv.fetchAttempt attempt :: REv.unregister :: tail.1,
                  tail.2)
      | .abortErr =>
          let tail := afterCatch cfg .abortE attempt delay
            (execLoop cfg transport times fuel (attempt + 1))
          (REv.register :: REv.fetchAttempt attempt :: REv.unregister :: tail.1,
            tail.2)
      | .netErr m =>
          let tail := afterCatch cfg (.fetchE m) attempt delay
            (execLoop cfg transport times fuel (attempt + 1))
          (REv.register :: REv.fetchAttempt attempt :: REv.unregister :: tail.1,
            tail.2)

/-- One `_executeWithRetry` call: the loop runs attempts `0..maxRetries`,
starting from the configured base backoff. -/
def execRun (cfg : ClientConfig) (transport : ℕ → FetchResult) (times : ℕ → ℚ) :
    List REv × Except ItchioErr RespBody :=
  execLoop cfg transport times (cfg.maxRetries + 1) 0 cfg.retryDelay none

/-- One `request()` call: a single `rateLimiter.acquire()` followed by the
retry loop; retries never re-acquire a limiter token. -/
def requestRun (cfg : ClientConfig) (transport : ℕ → FetchResult) (times : ℕ → ℚ) :
    List REv × Except ItchioErr RespBody :=
  (REv.acquireToken :: (execRun cfg transport times).1, (execRun cfg transport times).2)

/-- Number of fetch attempts recorded in a trace. -/
def fetchCount (evs : List REv) : ℕ :=
  (evs.filter (fun e => match e with | .fetchAttempt _ => true | _ => false)).length

/-- Sleep durations recorded in a trace, in order (both retry-after sleeps and
backoff sleeps). -/
def sleepList (evs : List REv) : List ℚ :=
  evs.filterMap (fun e => match e with
    | .sleepRetryAfter d => some d
    | .sleepBackoff d => some d
    | _ => none)

/-- Number of limiter acquisitions recorded in a trace. -/
def acquireCount (evs : List REv) : ℕ :=
  (evs.filter (fun e => match e with | .acquireToken => true | _ => false)).length

/-- Whether the request's abort-controller handle is registered in
`activeRequests` after processing the given events, starting from
registration state `b`. -/
def registryAfter (b : Bool) (evs : List REv) : Bool :=
  evs.foldl (fun acc e => match e with
    | REv.register => true
    | REv.unregister => false
    | _ => acc) b

/-- Whether every fetch attempt in the trace happens while the handle is
registered, starting from registration state `b`. -/
def fetchesRegistered : Bool → List REv → Bool
  | _, [] => true
  | _, REv.register :: rest => fetchesRegistered true rest
  | _, REv.unregister :: rest => fetchesRegistered false rest
  | b, REv.fetchAttempt _ :: rest => b && fetchesRegistered b rest
  | b, _ :: rest => fetchesRegistered b rest

/-- Simp set name list shared by concrete executor evaluations. -/
theorem execRun_def (cfg : ClientConfig) (transport : ℕ → FetchResult)
    (times : ℕ → ℚ) :
    execRun cfg transport times =
      execLoop cfg transport times (cfg.maxRetries + 1) 0 cfg.retryDelay none := rfl

/-- C5.  With `retryDelay=1000, retryMultiplier=2, maxRetryDelay=32000,
maxRetries=5` and a transport that always returns HTTP 503, the executor
performs exactly 6 attempts with inter-attempt delays 1000, 2000, 4000, 8000,
16000 ms and then throws a terminal `ItchioApiError` with status 503, which is
a server error (5xx). -/
theorem c5_backoff_schedule_503 :
    fetchCount (execRun ⟨30000, 5, 1000, 2, 32000⟩
        (fun _ => .ok ⟨503, none, .jsonB none ""⟩) (fun _ => 0)).1 = 6 ∧
    sleepList (execRun ⟨30000, 5, 1000, 2, 32000⟩
        (fun _ => .ok ⟨503, none, .jsonB none ""⟩) (fun _ => 0)).1 =
      [1000, 2000, 4000, 8000, 16000] ∧
    (execRun ⟨30000, 5, 1000, 2, 32000⟩
        (fun _ => .ok ⟨503, none, .jsonB none ""⟩) (fun _ => 0)).2 =
      .error (.apiError "HTTP 503" 503 (some (.jsonB none ""))) ∧
    ItchioErr.isServerError (.apiError "HTTP 503" 503 (some (.jsonB none ""))) = true := by
  refine ⟨?_, ?_, ?_, ?_⟩
  all_goals
    norm_num [execRun, execLoop, afterCatch, shouldNotRetry, wrapError, parseResponse,
      apiErrMsg, getRetryAfterMs, sleepList, fetchCount, HttpResponse.ok,
      RespBody.errorsField, ItchioErr.isApiInstance, ItchioErr.statusCode,
      ItchioErr.isServerError, List.filterMap, List.filter]
  all_goals rfl

/-- C3.  A timed-out attempt is not retried by the code.  With `maxRetries=3`
and a transport whose first attempt is aborted by the per-attempt timeout (the
fetch rejects with `AbortError`) while every later attempt would return HTTP
200, the executor performs exactly 1 attempt and throws
`ItchioTimeoutError('Request timeout')` — even though the repository's own
`isRetryableError` classifies that very error as retryable.
`_shouldNotRetry` cannot distinguish the attempt's own timeout from a
caller-initiated cancellation (both reject with the same `AbortError` from the
merged signal) and treats every abort as non-retryable. -/
theorem c3_timeout_not_retried :
    fetchCount (execRun ⟨30000, 3, 1000, 2, 32000⟩
        (fun n => if n = 0 then .abortErr else .ok ⟨200, none, .jsonB none "yes"⟩)
        (fun _ => 0)).1 = 1 ∧
    (execRun ⟨30000, 3, 1000, 2, 32000⟩
        (fun n => if n = 0 then .abortErr else .ok ⟨200, none, .jsonB none "yes"⟩)
        (fun _ => 0)).2 = .error (.timeoutError "Request timeout") ∧
    isRetryableError (.timeoutError "Request timeout") = true := by
  refine ⟨?_, ?_, ?_⟩ <;>
    norm_num [execRun, execLoop, afterCatch, shouldNotRetry, wrapError,
      fetchCount, isRetryableError, List.filter]

/-- C8.  Even on an ok (2xx) status, a parsed JSON body carrying a non-empty
`errors` array makes `_parseResponse` throw an `ItchioApiError` whose message
joins the errors with a comma separator and which carries the response status
and the parsed body. -/
theorem c8_inband_errors_fail (status : ℕ) (hdr : Option RetryAfterVal)
    (es : List String) (p : String)
    (h200 : 200 ≤ status) (h300 : status < 300) (hne : es ≠ []) :
    parseResponse ⟨status, hdr, .jsonB (some es) p⟩ =
      .error (.apiError (String.intercalate ", " es) status
        (some (.jsonB (some es) p))) := by
  have hok : HttpResponse.ok ⟨status, hdr, .jsonB (some es) p⟩ = true := by
    simp [HttpResponse.ok]; omega
  have hlen : 0 < es.length := List.length_pos.mpr hne
  simp [parseResponse, hok, RespBody.errorsField, hlen]

/-- C8 witness: an HTTP 200 response whose body carries `errors: ["boom"]`
is rejected as an `ItchioApiError` with status 200 and the parsed body. -/
theorem c8_inband_errors_fail_witness :
    parseResponse ⟨200, none, .jsonB (some ["boom"]) ""⟩ =
      .error (.apiError (String.intercalate ", " ["boom"]) 200
        (some (.jsonB (some ["boom"]) ""))) :=
  c8_inband_errors_fail 200 none ["boom"] "" (by decide) (by decide) (by decide)

/-- C7.  Whatever the configuration (in particular for every `maxRetries`),
header and body, a transport that returns HTTP 404 causes exactly one attempt
and a terminal `ItchioApiError` with status 404, which `errors.js` classifies
as non-retryable. -/
theorem c7_404_single_attempt (cfg : ClientConfig) (hdr : Option RetryAfterVal)
    (body : RespBody) (times : ℕ → ℚ) :
    fetchCount (execRun cfg (fun _ => .ok ⟨404, hdr, body⟩) times).1 = 1 ∧
    (execRun cfg (fun _ => .ok ⟨404, hdr, body⟩) times).2 =
      .error (.apiError (apiErrMsg body 404) 404 (some body)) ∧
    isRetryableError (.apiError (apiErrMsg body 404) 404 (some body)) = false := by
  refine ⟨?_, ?_, ?_⟩ <;>
    simp [execRun, execLoop, afterCatch, shouldNotRetry, wrapError, parseResponse,
      fetchCount, HttpResponse.ok, ItchioErr.isApiInstance, ItchioErr.statusCode,
      isRetryableError, List.filter]

/-- C4 counterexample.  The claim says that, absent a `retry-after` header,
the executor sleeps "the current backoff value".  The code instead falls back
to the configured base `config.retryDelay`.  With
`retryDelay=1000, retryMultiplier=2` and a transport returning 503, then 429
without header, then 503, then 200, the observed sleeps are
`[1000 (backoff), 1000 (retry-after fallback), 2000 (backoff)]`: at the 429
the backoff value in force was already 2000 — as the very next backoff sleep
shows — yet the retry-after sleep used 1000, and `1000 ≠ 2000`. -/
theorem c4_counterexample :
    sleepList (execRun ⟨30000, 5, 1000, 2, 32000⟩
        (fun n => if n = 0 then .ok ⟨503, none, .jsonB none ""⟩
          else if n = 1 then .ok ⟨429, none, .jsonB none ""⟩
          else if n = 2 then .ok ⟨503, none, .jsonB none ""⟩
          else .ok ⟨200, none, .jsonB none "done"⟩) (fun _ => 0)).1 =
      [1000, 1000, 2000] ∧
    ¬ ((1000 : ℚ) = 2000) := by
  constructor
  · norm_num [execRun, execLoop, afterCatch, shouldNotRetry, wrapError, parseResponse,
      apiErrMsg, getRetryAfterMs, sleepList, HttpResponse.ok, RespBody.errorsField,
      ItchioErr.isApiInstance, ItchioErr.statusCode, List.filterMap]
  · norm_num

/-- C6 counterexample.  The claim says the Active Request Handle stays in the
registry for the whole lifetime of the logical request and is removed exactly
once, when the request settles.  In the code the `finally` block of each
attempt removes the handle at the end of every attempt and the next attempt
re-registers it.  With a transport failing once with 503 and then succeeding,
the run emits two `unregister` events, and after the first four events
(`register`, `fetch 0`, `unregister`, `sleepBackoff 1000`) — i.e. during the
backoff sleep, strictly inside the logical request of 7 events — the handle is
absent from the registry. -/
theorem c6_counterexample :
    ((execRun ⟨30000, 5, 1000, 2, 32000⟩
        (fun n => if n = 0 then .ok ⟨503, none, .jsonB none ""⟩
          else .ok ⟨200, none, .jsonB none "done"⟩) (fun _ => 0)).1.filter
        (fun e => match e with | REv.unregister => true | _ => false)).length = 2 ∧
    registryAfter false ((execRun ⟨30000, 5, 1000, 2, 32000⟩
        (fun n => if n = 0 then .ok ⟨503, none, .jsonB none ""⟩
          else .ok ⟨200, none, .jsonB none "done"⟩) (fun _ => 0)).1.take 4) = false ∧
    (execRun ⟨30000, 5, 1000, 2, 32000⟩
        (fun n => if n = 0 then .ok ⟨503, none, .jsonB none ""⟩
          else .ok ⟨200, none, .jsonB none "done"⟩) (fun _ => 0)).1.length = 7 := by
  refine ⟨?_, ?_, ?_⟩ <;>
    norm_num [execRun, execLoop, afterCatch, shouldNotRetry, wrapError, parseResponse,
      apiErrMsg, registryAfter, HttpResponse.ok, RespBody.errorsField,
      ItchioErr.isApiInstance, ItchioErr.statusCode, List.filter, List.take]

/-- When `_shouldNotRetry` answers `false`, retries remain. -/
theorem shouldNotRetry_false_lt (m : ℕ) (e : CaughtErr) (a : ℕ)
    (h : shouldNotRetry m e a = false) : a < m := by
  by_contra hc
  rw [shouldNotRetry.eq_def, if_pos (by omega)] at h
  exact Bool.noConfusion h

/-- Registry discipline of the catch block: given that the continuation obeys
the discipline whenever it is actually taken, the catch-block tail starts and
ends unregistered and performs no fetch while unregistered. -/
theorem afterCatch_handle (cfg : ClientConfig) (e : CaughtErr) (attempt : ℕ)
    (delay : ℚ)
    (rec : ℚ → Option CaughtErr → List REv × Except ItchioErr RespBody)
    (hrec : shouldNotRetry cfg.maxRetries e attempt = false →
      fetchesRegistered false
          (rec (min (delay * cfg.retryMultiplier) cfg.maxRetryDelay) (some e)).1
        = true ∧
      registryAfter false
          (rec (min (delay * cfg.retryMultiplier) cfg.maxRetryDelay) (some e)).1
        = false) :
    fetchesRegistered false (afterCatch cfg e attempt delay rec).1 = true ∧
    registryAfter false (afterCatch cfg e attempt delay rec).1 = false := by
  by_cases h : shouldNotRetry cfg.maxRetries e attempt
  · simp [afterCatch, h, fetchesRegistered, registryAfter]
  · have h' : shouldNotRetry cfg.maxRetries e attempt = false := by
      simpa using h
    have := hrec h'
    simp [afterCatch, h', fetchesRegistered, registryAfter]
    exact this

/-- Registry discipline of the whole retry loop: every fetch happens with the
handle registered, and after the loop settles the handle is unregistered. -/
theorem execLoop_handle_discipline (cfg : ClientConfig) (tr : ℕ → FetchResult)
    (times : ℕ → ℚ) :
    ∀ (fuel attempt : ℕ) (delay : ℚ) (lastE : Option CaughtErr) (b : Bool),
      0 < fuel → attempt + fuel = cfg.maxRetries + 1 →
      fetchesRegistered b (execLoop cfg tr times fuel attempt delay lastE).1 = true ∧
      registryAfter b (execLoop cfg tr times fuel attempt delay lastE).1 = false := by
  intro fuel
  induction fuel with
  | zero => intro attempt delay lastE b h0 _; omega
  | succ f ih =>
      intro attempt delay lastE b _ hsum
      have hcatch : ∀ (e : CaughtErr) (d : ℚ),
          fetchesRegistered false
              (afterCatch cfg e attempt d (execLoop cfg tr times f (attempt + 1))).1
            = true ∧
          registryAfter false
              (afterCatch cfg e attempt d (execLoop cfg tr times f (attempt + 1))).1
            = false := by
        intro e d
        apply afterCatch_handle
        intro hsnr
        have hlt := shouldNotRetry_false_lt _ _ _ hsnr
        exact ih (attempt + 1) _ _ false (by omega) (by omega)
      cases htr : tr attempt with
      | ok r =>
          by_cases h429 : r.status = 429
          · by_cases hlt : attempt < cfg.maxRetries
            · have hnext := ih (attempt + 1) delay lastE false (by omega) (by omega)
              simp [execLoop, htr, h429, hlt, fetchesRegistered, registryAfter]
              exact hnext
            · have htail := hcatch
                (.thrownE (.rateLimitError "Rate limit exceeded"
                  (getRetryAfterMs cfg (times attempt) r))) delay
              simp [execLoop, htr, h429, hlt, fetchesRegistered, registryAfter]
              exact htail
          · cases hp : parseResponse r with
            | ok data =>
                simp [execLoop, htr, h429, hp, fetchesRegistered, registryAfter]
            | error err =>
                have htail := hcatch (.thrownE err) delay
                simp [execLoop, htr, h429, hp, fetchesRegistered, registryAfter]
                exact htail
      | abortErr =>
          have htail := hcatch .abortE delay
          simp [execLoop, htr, fetchesRegistered, registryAfter]
          exact htail
      | netErr m =>
          have htail := hcatch (.fetchE m) delay
          simp [execLoop, htr, fetchesRegistered, registryAfter]
          exact htail

/-- C6 amended.  The Active Request Handle is not held for the whole logical
request: the `finally` block removes it at the end of every attempt (on every
exit path, including thrown errors) and the next attempt re-registers it.
What does hold, for every configuration and transport: each fetch attempt
executes with the handle registered, and when the run settles (success or
terminal failure) the handle has been removed — so during backoff sleeps
between attempts, and after settling, the registry does not hold the
handle. -/
theorem c6_handle_per_attempt_amended (cfg : ClientConfig) (tr : ℕ → FetchResult)
    (times : ℕ → ℚ) :
    fetchesRegistered false (execRun cfg tr times).1 = true ∧
    registryAfter false (execRun cfg tr times).1 = false :=
  execLoop_handle_discipline cfg tr times (cfg.maxRetries + 1) 0 cfg.retryDelay
    none false (by omega) (by omega)

/-- Transport returning HTTP 429 on the first attempt and HTTP 200 with body
`ok2` afterwards. -/
def tr429Once (hdr : Option RetryAfterVal) (b1 ok2 : RespBody) : ℕ → FetchResult :=
  fun k => if k = 0 then .ok ⟨429, hdr, b1⟩ else .ok ⟨200, none, ok2⟩

/-- Transport returning HTTP 429, then HTTP 503, then HTTP 200. -/
def tr429Then503 (hdr : Option RetryAfterVal) (b1 b2 ok2 : RespBody) :
    ℕ → FetchResult :=
  fun k =>
    if k = 0 then .ok ⟨429, hdr, b1⟩
    else if k = 1 then .ok ⟨503, none, b2⟩
    else .ok ⟨200, none, ok2⟩

/-- Terminal behaviour on a transport that always answers 429: once attempts
are exhausted the loop throws the `ItchioRateLimitError` carrying the
retry-after duration computed at the final attempt. -/
theorem execLoop_429_exhaust (cfg : ClientConfig) (times : ℕ → ℚ)
    (hdr : Option RetryAfterVal) (body : RespBody) :
    ∀ (fuel attempt : ℕ) (delay : ℚ) (lastE : Option CaughtErr),
      0 < fuel → attempt + fuel = cfg.maxRetries + 1 →
      (execLoop cfg (fun _ => .ok ⟨429, hdr, body⟩) times fuel attempt delay lastE).2 =
        .error (.rateLimitError "Rate limit exceeded"
          (getRetryAfterMs cfg (times cfg.maxRetries) ⟨429, hdr, body⟩)) := by
  intro fuel
  induction fuel with
  | zero => intro a d l h0 _; omega
  | succ f ih =>
      intro attempt delay lastE _ hsum
      by_cases hlt : attempt < cfg.maxRetries
      · have hrec := ih (attempt + 1) delay lastE (by omega) (by omega)
        simp [execLoop, hlt]
        exact hrec
      · have ha : attempt = cfg.maxRetries := by omega
        subst ha
        simp [execLoop, hlt, afterCatch, shouldNotRetry, wrapError,
          ItchioErr.isApiInstance]

/-- Conjunction of the amended C4 properties, stated over an arbitrary
configuration, clock, `retry-after` header and bodies.  In order: the three
header forms of `_getRetryAfter` (integer seconds become milliseconds, an HTTP
date gives `max(0, date - now)`, and a missing header falls back to the
configured base `config.retryDelay`); a 429 answered by a success sleeps
exactly the retry-after duration, retries within the same logical request and
consumes exactly one limiter token in total; a 429 followed by a 503 shows the
exponential backoff value is not advanced by the 429 (the next backoff sleep
still uses the base delay); and exhausted attempts on constant 429 raise the
terminal rate-limit error carrying the retry-after duration. -/
def C4Amended (cfg : ClientConfig) (times : ℕ → ℚ) (hdr : Option RetryAfterVal)
    (body b2 : RespBody) (p : String) (n : ℕ) (d : ℚ) : Prop :=
  getRetryAfterMs cfg (times 0) ⟨429, some (.seconds n), body⟩ = (n : ℚ) * 1000 ∧
  getRetryAfterMs cfg (times 0) ⟨429, some (.httpDate d), body⟩ = max 0 (d - times 0) ∧
  getRetryAfterMs cfg (times 0) ⟨429, none, body⟩ = cfg.retryDelay ∧
  requestRun cfg (tr429Once hdr body (.jsonB none p)) times =
    ([REv.acquireToken, REv.register, REv.fetchAttempt 0,
      REv.sleepRetryAfter (getRetryAfterMs cfg (times 0) ⟨429, hdr, body⟩),
      REv.unregister, REv.register, REv.fetchAttempt 1, REv.unregister],
      .ok (.jsonB none p)) ∧
  acquireCount (requestRun cfg (tr429Once hdr body (.jsonB none p)) times).1 = 1 ∧
  sleepList (execRun cfg (tr429Then503 hdr body b2 (.jsonB none p)) times).1 =
    [getRetryAfterMs cfg (times 0) ⟨429, hdr, body⟩, cfg.retryDelay] ∧
  (execRun cfg (fun _ => .ok ⟨429, hdr, body⟩) times).2 =
    .error (.rateLimitError "Rate limit exceeded"
      (getRetryAfterMs cfg (times cfg.maxRetries) ⟨429, hdr, body⟩))

/-- C4 amended.  When an attempt receives HTTP 429 and attempts remain, the
executor sleeps the retry-after duration (integer seconds times 1000, or
`max(0, date - now)` for a date header, or — absent or unparseable header —
the configured base `retryDelay`, not the current backoff value), then
continues the loop without consuming another limiter token and without
advancing the exponential backoff; with no attempts remaining it raises a
terminal rate-limit error carrying the retry-after duration. -/
theorem c4_429_handling_amended (cfg : ClientConfig) (times : ℕ → ℚ)
    (hdr : Option RetryAfterVal) (body b2 : RespBody) (p : String) (n : ℕ) (d : ℚ)
    (h2 : 2 ≤ cfg.maxRetries) :
    C4Amended cfg times hdr body b2 p n d := by
  have hterm := execLoop_429_exhaust cfg times hdr body (cfg.maxRetries + 1) 0
    cfg.retryDelay none (by omega) (by omega)
  obtain ⟨tmo, mr, rd, rm, mrd⟩ := cfg
  have h2' : 2 ≤ mr := h2
  obtain ⟨k, hk⟩ : ∃ k, mr = k + 2 := ⟨mr - 2, by omega⟩
  subst hk
  have hfuel : k + 2 + 1 = k + 1 + 1 + 1 := by omega
  have h0lt : 0 < k + 2 := by omega
  have h1lt : 1 < k + 2 := by omega
  refine ⟨rfl, rfl, rfl, ?_, ?_, ?_, hterm⟩
  · simp only [requestRun, execRun]
    rw [hfuel]
    simp [execLoop, tr429Once, h0lt, parseResponse,
      HttpResponse.ok, RespBody.errorsField]
  · simp only [requestRun, execRun]
    rw [hfuel]
    simp [execLoop, tr429Once, h0lt, parseResponse,
      HttpResponse.ok, RespBody.errorsField, acquireCount, List.filter]
  · have hsnr : shouldNotRetry (k + 2)
        (.thrownE (.apiError (apiErrMsg b2 503) 503 (some b2))) 1 = false := by
      rw [shouldNotRetry.eq_def, if_neg (by omega)]
      simp [ItchioErr.isApiInstance, ItchioErr.statusCode]
    simp only [execRun]
    rw [hfuel]
    simp [execLoop, tr429Then503, h0lt, h1lt, parseResponse,
      HttpResponse.ok, RespBody.errorsField, afterCatch, hsnr, sleepList,
      List.filterMap, apiErrMsg]

/-- C4 amended witness: the amended properties at a concrete configuration
(`maxRetries = 5`), clock, header and bodies. -/
theorem c4_429_handling_amended_witness :
    2 ≤ (⟨30000, 5, 1000, 2, 32000⟩ : ClientConfig).maxRetries ∧
    C4Amended ⟨30000, 5, 1000, 2, 32000⟩ (fun _ => 0) (some (.seconds 2))
      (.jsonB none "") (.jsonB none "") "done" 2 7000 :=
  ⟨by decide,
    c4_429_handling_amended ⟨30000, 5, 1000, 2, 32000⟩ (fun _ => 0)
      (some (.seconds 2)) (.jsonB none "") (.jsonB none "") "done" 2 7000
      (by decide)⟩

/-- Configuration facts of a limiter state: capacity at least one token, a
positive window, and the refill rate the constructor computes. -/
def ConfigOK (s : RateLimiter) : Prop :=
  1 ≤ s.maxTokens ∧ 0 < s.windowMs ∧ s.refillRate = s.maxTokens / s.windowMs

/-- Token range invariant. -/
def TokOK (s : RateLimiter) : Prop :=
  0 ≤ s.tokens ∧ s.tokens ≤ s.maxTokens

/-- Pending-waiter invariant: every queued waiter was scheduled no earlier
than the last refill, and by its scheduled fire time the refill stream will
have accumulated at least the one token it consumes. -/
def PendOK (s : RateLimiter) : Prop :=
  ∀ p ∈ s.queue,
    s.lastRefill ≤ p.1 ∧ 1 ≤ s.tokens + (p.1 - s.lastRefill) * s.refillRate

/-- Accounting invariant for the closed window `[a, b]`, with `G` the number
of grants inside the window so far: while the clock has not passed `b`, the
granted count plus the remaining tokens is bounded by the capacity plus what
the refill stream can have delivered since `a`; once past `b` the count is
frozen below the same bound evaluated at `b`. -/
def AccOK (a b : ℚ) (s : RateLimiter) (G : ℕ) : Prop :=
  (s.lastRefill < a → G = 0) ∧
  (s.lastRefill ≤ b →
    (G : ℚ) + s.tokens ≤ s.maxTokens + s.refillRate * max 0 (s.lastRefill - a)) ∧
  (b < s.lastRefill → (G : ℚ) ≤ s.maxTokens + s.refillRate * max 0 (b - a))

/-- The refill rate is positive under `ConfigOK`. -/
theorem configOK_rate_pos (s : RateLimiter) (hco : ConfigOK s) :
    0 < s.refillRate := by
  obtain ⟨h1, hW, hr⟩ := hco
  rw [hr]
  exact div_pos (by linarith) hW

/-- `countWindow` distributes over appending grant lists. -/
theorem countWindow_append (xs ys : List ℚ) (a b : ℚ) :
    countWindow (xs ++ ys) a b = countWindow xs a b + countWindow ys a b := by
  simp [countWindow, List.filter_append]

/-- `_refillTokens` keeps the token range and the window accounting intact
when the clock moves forward. -/
theorem refill_preserves (a b t : ℚ) (s : RateLimiter) (G : ℕ)
    (hco : ConfigOK s) (htk : TokOK s) (hacc : AccOK a b s G)
    (ht : s.lastRefill ≤ t) :
    TokOK (s.refillTokens t) ∧ AccOK a b (s.refillTokens t) G := by
  have hr := configOK_rate_pos s hco
  obtain ⟨h1M, hW, hrdef⟩ := hco
  obtain ⟨htk0, htkM⟩ := htk
  obtain ⟨hacc1, hacc2, hacc3⟩ := hacc
  have hadd : 0 ≤ (t - s.lastRefill) * s.refillRate :=
    mul_nonneg (by linarith) (le_of_lt hr)
  constructor
  · constructor
    · simp only [RateLimiter.refillTokens]
      exact le_min (by linarith) (by linarith)
    · simp only [RateLimiter.refillTokens]
      exact min_le_left _ _
  · refine ⟨?_, ?_, ?_⟩
    · intro hta
      exact hacc1 (by simp only [RateLimiter.refillTokens] at hta ⊢; linarith)
    · intro htb
      simp only [RateLimiter.refillTokens] at htb ⊢
      have hlb : s.lastRefill ≤ b := le_trans ht htb
      have h2 := hacc2 hlb
      rcases le_or_lt a s.lastRefill with hla | hla
      · have hmax1 : max 0 (s.lastRefill - a) = s.lastRefill - a :=
          max_eq_right (by linarith)
        have hmax2 : max 0 (t - a) = t - a := max_eq_right (by linarith)
        rw [hmax1] at h2
        rw [hmax2]
        have hid : s.refillRate * (t - a) =
            s.refillRate * (s.lastRefill - a) + (t - s.lastRefill) * s.refillRate := by
          ring
        rcases le_or_lt (s.tokens + (t - s.lastRefill) * s.refillRate) s.maxTokens
          with hcap | hcap
        · rw [min_eq_right hcap]
          linarith
        · rw [min_eq_left (by linarith)]
          linarith
      · have hG0 : G = 0 := hacc1 hla
        have hmaxnn : 0 ≤ max 0 (t - a) := le_max_left _ _
        have hprod : 0 ≤ s.refillRate * max 0 (t - a) :=
          mul_nonneg (le_of_lt hr) hmaxnn
        have hminM : min s.maxTokens (s.tokens + (t - s.lastRefill) * s.refillRate)
            ≤ s.maxTokens := min_le_left _ _
        rw [hG0]
        push_cast
        linarith
    · intro hbt
      simp only [RateLimiter.refillTokens] at hbt ⊢
      rcases le_or_lt s.lastRefill b with hlb | hlb
      · have h2 := hacc2 hlb
        have hmono : max 0 (s.lastRefill - a) ≤ max 0 (b - a) :=
          max_le_max (le_refl 0) (by linarith)
        have hprod : s.refillRate * max 0 (s.lastRefill - a)
            ≤ s.refillRate * max 0 (b - a) :=
          mul_le_mul_of_nonneg_left hmono (le_of_lt hr)
        linarith
      · exact hacc3 hlb

/-- Consuming one token by a grant that happens at the current refill instant
keeps the window accounting, the granted count increasing exactly when the
grant time lies in the window. -/
theorem acc_grant (a b : ℚ) (s : RateLimiter) (G : ℕ)
    (hacc : AccOK a b s G) :
    AccOK a b { s with tokens := s.tokens - 1 }
      (G + countWindow [s.lastRefill] a b) := by
  obtain ⟨hacc1, hacc2, hacc3⟩ := hacc
  by_cases hin : a ≤ s.lastRefill ∧ s.lastRefill ≤ b
  · have hcw : countWindow [s.lastRefill] a b = 1 := by
      simp [countWindow, List.filter, hin.1, hin.2]
    rw [hcw]
    refine ⟨?_, ?_, ?_⟩
    · intro hla; exact absurd hin.1 (by linarith)
    · intro hlb
      have h2 := hacc2 hlb
      simp only []
      push_cast
      linarith
    · intro hbt; exact absurd hin.2 (by linarith)
  · have hcw : countWindow [s.lastRefill] a b = 0 := by
      have hb : (decide (a ≤ s.lastRefill) && decide (s.lastRefill ≤ b)) = false := by
        rcases not_and_or.mp hin with h | h <;> simp [h]
      simp [countWindow, List.filter, hb]
    rw [hcw]
    refine ⟨?_, ?_, ?_⟩
    · intro hla; simpa using hacc1 hla
    · intro hlb
      have h2 := hacc2 hlb
      simp only [Nat.add_zero]
      linarith
    · intro hbt
      simpa using hacc3 hbt

/-- Splitting `countWindow` at the head grant. -/
theorem countWindow_cons (x : ℚ) (gs : List ℚ) (a b : ℚ) :
    countWindow (x :: gs) a b = countWindow [x] a b + countWindow gs a b := by
  rw [show (x :: gs) = [x] ++ gs from rfl, countWindow_append]

/-- Stats updates do not touch the accounting fields. -/
theorem accOK_stats (a b w : ℚ) (s : RateLimiter) (G : ℕ) (h : AccOK a b s G) :
    AccOK a b (RateLimiter.updateStats w s) G := by
  simpa [AccOK, RateLimiter.updateStats] using h

/-- Stats updates do not touch the token range. -/
theorem tokOK_stats (w : ℚ) (s : RateLimiter) (h : TokOK s) :
    TokOK (RateLimiter.updateStats w s) := by
  simpa [TokOK, RateLimiter.updateStats] using h

/-- Stats updates do not touch the configuration fields. -/
theorem configOK_stats (w : ℚ) (s : RateLimiter) (h : ConfigOK s) :
    ConfigOK (RateLimiter.updateStats w s) := by
  simpa [ConfigOK, RateLimiter.updateStats] using h

/-- Stats updates do not touch the waiter queue. -/
theorem pendOK_stats (w : ℚ) (s : RateLimiter) (h : PendOK s) :
    PendOK (RateLimiter.updateStats w s) := by
  simpa [PendOK, RateLimiter.updateStats] using h

/-- The refill keeps the configuration fields. -/
theorem configOK_refill (t : ℚ) (s : RateLimiter) (h : ConfigOK s) :
    ConfigOK (s.refillTokens t) := by
  simpa [ConfigOK, RateLimiter.refillTokens] using h

/-- Main preservation run: along any well-formed sequential trace, the token
range invariant holds and the window accounting tracks the grants emitted. -/
theorem runL_inv (a b : ℚ) :
    ∀ (evs : List LEv) (s : RateLimiter) (G : ℕ),
      WFb s evs = true → ConfigOK s → TokOK s → PendOK s → AccOK a b s G →
      TokOK (runL s evs).1 ∧
      AccOK a b (runL s evs).1 (G + countWindow (runL s evs).2 a b) := by
  intro evs
  induction evs with
  | nil =>
      intro s G _ _ htk _ hacc
      constructor
      · simpa [runL] using htk
      · simpa [runL, countWindow] using hacc
  | cons e rest ih =>
      intro s G hwf hco htk hpd hacc
      cases e with
      | tryA t =>
          rw [WFb, Bool.and_eq_true, Bool.and_eq_true] at hwf
          obtain ⟨⟨hq, hlt⟩, hrest⟩ := hwf
          rw [decide_eq_true_eq] at hq hlt
          have hrp := refill_preserves a b t s G hco htk hacc hlt
          have hco1 := configOK_refill t s hco
          by_cases hgr : 1 ≤ (s.refillTokens t).tokens
          · have hstep : lstep (.tryA t) s =
                (RateLimiter.updateStats 0
                  { s.refillTokens t with tokens := (s.refillTokens t).tokens - 1 },
                  some t) := by
              simp [lstep, RateLimiter.tryAcquire, hgr]
            rw [hstep] at hrest
            simp only [runL_cons, hstep]
            dsimp only [List.cons_append, List.nil_append]
            have htk2 : TokOK (RateLimiter.updateStats 0
                { s.refillTokens t with tokens := (s.refillTokens t).tokens - 1 }) := by
              apply tokOK_stats
              constructor
              · show (0:ℚ) ≤ (s.refillTokens t).tokens - 1
                linarith
              · show (s.refillTokens t).tokens - 1 ≤ (s.refillTokens t).maxTokens
                have := hrp.1.2
                linarith
            have hacc2 : AccOK a b (RateLimiter.updateStats 0
                { s.refillTokens t with tokens := (s.refillTokens t).tokens - 1 })
                (G + countWindow [t] a b) := by
              apply accOK_stats
              have hag := acc_grant a b (s.refillTokens t) G hrp.2
              simpa [RateLimiter.refillTokens] using hag
            have hpd2 : PendOK (RateLimiter.updateStats 0
                { s.refillTokens t with tokens := (s.refillTokens t).tokens - 1 }) := by
              apply pendOK_stats
              intro p hp
              simp [RateLimiter.refillTokens, hq] at hp
            have hco2 : ConfigOK (RateLimiter.updateStats 0
                { s.refillTokens t with tokens := (s.refillTokens t).tokens - 1 }) := by
              apply configOK_stats
              simpa [ConfigOK] using hco1
            have hih := ih _ _ hrest hco2 htk2 hpd2 hacc2
            rw [countWindow_cons, ← Nat.add_assoc]
            exact hih
          · have hstep : lstep (.tryA t) s =
                ({ s.refillTokens t with
                    rejectedRequests := (s.refillTokens t).rejectedRequests + 1 },
                  none) := by
              simp [lstep, RateLimiter.tryAcquire, hgr]
            rw [hstep] at hrest
            simp only [runL_cons, hstep]
            dsimp only [List.cons_append, List.nil_append]
            have htk2 : TokOK { s.refillTokens t with
                rejectedRequests := (s.refillTokens t).rejectedRequests + 1 } := by
              have := hrp.1
              simpa [TokOK] using this
            have hacc2 : AccOK a b { s.refillTokens t with
                rejectedRequests := (s.refillTokens t).rejectedRequests + 1 } G := by
              have := hrp.2
              simpa [AccOK] using this
            have hpd2 : PendOK { s.refillTokens t with
                rejectedRequests := (s.refillTokens t).rejectedRequests + 1 } := by
              intro p hp
              simp [RateLimiter.refillTokens, hq] at hp
            have hco2 : ConfigOK { s.refillTokens t with
                rejectedRequests := (s.refillTokens t).rejectedRequests + 1 } := by
              simpa [ConfigOK] using hco1
            have hih := ih _ _ hrest hco2 htk2 hpd2 hacc2
            simpa using hih
      | acqA t =>
          rw [WFb, Bool.and_eq_true, Bool.and_eq_true] at hwf
          obtain ⟨⟨hq, hlt⟩, hrest⟩ := hwf
          rw [decide_eq_true_eq] at hq hlt
          have hrp := refill_preserves a b t s G hco htk hacc hlt
          have hco1 := configOK_refill t s hco
          have hr1 : 0 < (s.refillTokens t).refillRate := configOK_rate_pos _ hco1
          by_cases hgr : 1 ≤ (s.refillTokens t).tokens
          · have hstep : lstep (.acqA t) s =
                (RateLimiter.updateStats 0
                  { s.refillTokens t with tokens := (s.refillTokens t).tokens - 1 },
                  some t) := by
              simp [lstep, hgr]
            rw [hstep] at hrest
            simp only [runL_cons, hstep]
            dsimp only [List.cons_append, List.nil_append]
            have htk2 : TokOK (RateLimiter.updateStats 0
                { s.refillTokens t with tokens := (s.refillTokens t).tokens - 1 }) := by
              apply tokOK_stats
              constructor
              · show (0:ℚ) ≤ (s.refillTokens t).tokens - 1
                linarith
              · show (s.refillTokens t).tokens - 1 ≤ (s.refillTokens t).maxTokens
                have := hrp.1.2
                linarith
            have hacc2 : AccOK a b (RateLimiter.updateStats 0
                { s.refillTokens t with tokens := (s.refillTokens t).tokens - 1 })
                (G + countWindow [t] a b) := by
              apply accOK_stats
              have hag := acc_grant a b (s.refillTokens t) G hrp.2
              simpa [RateLimiter.refillTokens] using hag
            have hpd2 : PendOK (RateLimiter.updateStats 0
                { s.refillTokens t with tokens := (s.refillTokens t).tokens - 1 }) := by
              apply pendOK_stats
              intro p hp
              simp [RateLimiter.refillTokens, hq] at hp
            have hco2 : ConfigOK (RateLimiter.updateStats 0
                { s.refillTokens t with tokens := (s.refillTokens t).tokens - 1 }) := by
              apply configOK_stats
              simpa [ConfigOK] using hco1
            have hih := ih _ _ hrest hco2 htk2 hpd2 hacc2
            rw [countWindow_cons, ← Nat.add_assoc]
            exact hih
          · have hstep : lstep (.acqA t) s =
                ({ s.refillTokens t with
                    queue := (s.refillTokens t).queue ++
                      [(t + (s.refillTokens t).timeUntilNextToken, t)] },
                  none) := by
              simp [lstep, hgr]
            rw [hstep] at hrest
            simp only [runL_cons, hstep]
            dsimp only [List.cons_append, List.nil_append]
            have hTlt : (s.refillTokens t).tokens < 1 := by linarith [not_le.mp hgr]
            have hceil : ((1 : ℚ) - (s.refillTokens t).tokens) / (s.refillTokens t).refillRate
                ≤ ((⌈((1 : ℚ) - (s.refillTokens t).tokens) /
                    (s.refillTokens t).refillRate⌉ : ℤ) : ℚ) := Int.le_ceil _
            have hdpos : 0 < ((1 : ℚ) - (s.refillTokens t).tokens) /
                (s.refillTokens t).refillRate := div_pos (by linarith) hr1
            have hdr : ((1 : ℚ) - (s.refillTokens t).tokens) /
                (s.refillTokens t).refillRate * (s.refillTokens t).refillRate =
                1 - (s.refillTokens t).tokens :=
              div_mul_cancel₀ _ (ne_of_gt hr1)
            have htut : (s.refillTokens t).timeUntilNextToken =
                ((⌈((1 : ℚ) - (s.refillTokens t).tokens) /
                  (s.refillTokens t).refillRate⌉ : ℤ) : ℚ) := by
              rw [RateLimiter.timeUntilNextToken, if_neg (by linarith)]
            have htk2 : TokOK { s.refillTokens t with
                queue := (s.refillTokens t).queue ++
                  [(t + (s.refillTokens t).timeUntilNextToken, t)] } := by
              have := hrp.1
              simpa [TokOK] using this
            have hacc2 : AccOK a b { s.refillTokens t with
                queue := (s.refillTokens t).queue ++
                  [(t + (s.refillTokens t).timeUntilNextToken, t)] } G := by
              have := hrp.2
              simpa [AccOK] using this
            have hd : ((1 : ℚ) - (s.refillTokens t).tokens) /
                (s.refillTokens t).refillRate ≤
                (s.refillTokens t).timeUntilNextToken := by
              rw [htut]; exact hceil
            have hdpos2 : 0 < (s.refillTokens t).timeUntilNextToken :=
              lt_of_lt_of_le hdpos hd
            have hmul : 1 - (s.refillTokens t).tokens ≤
                (s.refillTokens t).timeUntilNextToken * (s.refillTokens t).refillRate := by
              calc 1 - (s.refillTokens t).tokens
                  = ((1 : ℚ) - (s.refillTokens t).tokens) /
                      (s.refillTokens t).refillRate *
                      (s.refillTokens t).refillRate := hdr.symm
                _ ≤ _ := mul_le_mul_of_nonneg_right hd (le_of_lt hr1)
            have hpd2 : PendOK { s.refillTokens t with
                queue := (s.refillTokens t).queue ++
                  [(t + (s.refillTokens t).timeUntilNextToken, t)] } := by
              intro p hp
              have hq1 : (s.refillTokens t).queue = [] := by
                simpa [RateLimiter.refillTokens] using hq
              have hpq : p ∈ (s.refillTokens t).queue ++
                  [(t + (s.refillTokens t).timeUntilNextToken, t)] := hp
              rw [hq1, List.nil_append, List.mem_singleton] at hpq
              subst hpq
              show t ≤ t + (s.refillTokens t).timeUntilNextToken ∧
                1 ≤ (s.refillTokens t).tokens +
                  (t + (s.refillTokens t).timeUntilNextToken - t) *
                    (s.refillTokens t).refillRate
              have harith : t + (s.refillTokens t).timeUntilNextToken - t =
                  (s.refillTokens t).timeUntilNextToken := by ring
              rw [harith]
              constructor
              · linarith
              · linarith
            have hco2 : ConfigOK { s.refillTokens t with
                queue := (s.refillTokens t).queue ++
                  [(t + (s.refillTokens t).timeUntilNextToken, t)] } := by
              simpa [ConfigOK] using hco1
            have hih := ih _ _ hrest hco2 htk2 hpd2 hacc2
            simpa using hih
      | fire t st =>
          rw [WFb, Bool.and_eq_true, Bool.and_eq_true] at hwf
          obtain ⟨⟨hq, hlt⟩, hrest⟩ := hwf
          rw [decide_eq_true_eq] at hq hlt
          have hrp := refill_preserves a b t s G hco htk hacc hlt
          have hco1 := configOK_refill t s hco
          have hmem : (t, st) ∈ s.queue := by rw [hq]; exact List.mem_singleton.mpr rfl
          have hpdm := hpd (t, st) hmem
          have h1M : 1 ≤ s.maxTokens := hco.1
          have hT1 : 1 ≤ (s.refillTokens t).tokens := by
            simp only [RateLimiter.refillTokens]
            exact le_min h1M (by simpa using hpdm.2)
          have hstep : lstep (.fire t st) s =
              (RateLimiter.updateStats (t - st)
                { s.refillTokens t with
                    tokens := (s.refillTokens t).tokens - 1
                    queue := (s.refillTokens t).queue.eraseP
                      (fun p => decide (p = (t, st))) },
                some t) := by
            simp [lstep]
          rw [hstep] at hrest
          simp only [runL_cons, hstep]
          dsimp only [List.cons_append, List.nil_append]
          have hqe : ((s.refillTokens t).queue.eraseP
              (fun p => decide (p = (t, st)))) = [] := by
            have : (s.refillTokens t).queue = [(t, st)] := by
              simpa [RateLimiter.refillTokens] using hq
            rw [this]
            simp [List.eraseP]
          have htk2 : TokOK (RateLimiter.updateStats (t - st)
              { s.refillTokens t with
                  tokens := (s.refillTokens t).tokens - 1
                  queue := (s.refillTokens t).queue.eraseP
                    (fun p => decide (p = (t, st))) }) := by
            apply tokOK_stats
            constructor
            · show (0:ℚ) ≤ (s.refillTokens t).tokens - 1
              linarith
            · show (s.refillTokens t).tokens - 1 ≤ (s.refillTokens t).maxTokens
              have := hrp.1.2
              linarith
          have hacc2 : AccOK a b (RateLimiter.updateStats (t - st)
              { s.refillTokens t with
                  tokens := (s.refillTokens t).tokens - 1
                  queue := (s.refillTokens t).queue.eraseP
                    (fun p => decide (p = (t, st))) })
              (G + countWindow [t] a b) := by
            apply accOK_stats
            have hag := acc_grant a b (s.refillTokens t) G hrp.2
            simpa [AccOK, RateLimiter.refillTokens] using hag
          have hpd2 : PendOK (RateLimiter.updateStats (t - st)
              { s.refillTokens t with
                  tokens := (s.refillTokens t).tokens - 1
                  queue := (s.refillTokens t).queue.eraseP
                    (fun p => decide (p = (t, st))) }) := by
            apply pendOK_stats
            intro p hp
            simp only [hqe] at hp
            simp at hp
          have hco2 : ConfigOK (RateLimiter.updateStats (t - st)
              { s.refillTokens t with
                  tokens := (s.refillTokens t).tokens - 1
                  queue := (s.refillTokens t).queue.eraseP
                    (fun p => decide (p = (t, st))) }) := by
            apply configOK_stats
            simpa [ConfigOK] using hco1
          have hih := ih _ _ hrest hco2 htk2 hpd2 hacc2
          rw [countWindow_cons, ← Nat.add_assoc]
          exact hih

/-- Limiter runs never change the capacity or the refill rate. -/
theorem runL_fields : ∀ (evs : List LEv) (s : RateLimiter),
    (runL s evs).1.maxTokens = s.maxTokens ∧
    (runL s evs).1.refillRate = s.refillRate := by
  intro evs
  induction evs with
  | nil => intro s; exact ⟨rfl, rfl⟩
  | cons e rest ih =>
      intro s
      have hstep : (lstep e s).1.maxTokens = s.maxTokens ∧
          (lstep e s).1.refillRate = s.refillRate := by
        cases e with
        | tryA t =>
            simp only [lstep, RateLimiter.tryAcquire, RateLimiter.updateStats,
              RateLimiter.refillTokens]
            split <;> simp
        | acqA t =>
            simp only [lstep, RateLimiter.timeUntilNextToken,
              RateLimiter.updateStats, RateLimiter.refillTokens]
            split <;> simp
        | fire t st =>
            simp [lstep, RateLimiter.updateStats, RateLimiter.refillTokens]
      have hr := ih (lstep e s).1
      simp only [runL_cons]
      exact ⟨hr.1.trans hstep.1, hr.2.trans hstep.2⟩

/-- C1 amended.  A token bucket created with `(capacity, windowMs)` does not
bound grants in a rolling window by `capacity` (the bucket starts full, so a
burst rides on top of the refill stream; see the counterexample) — the tight
rolling-window bound is `2 * capacity`: along every well-formed sequential
trace of `acquire()`/`tryAcquire()` calls spaced in real time (each pending
waiter fires at its scheduled time before the next call), the number of grants
inside any closed interval of length `windowMs` is at most `2 * capacity`. -/
theorem c1_bounded_rate_amended (cap : ℕ) (W t0 a : ℚ) (evs : List LEv)
    (hcap : 1 ≤ cap) (hW : 0 < W)
    (hwf : WFb (RateLimiter.init ((cap : ℕ) : ℚ) W t0) evs = true) :
    countWindow (runL (RateLimiter.init ((cap : ℕ) : ℚ) W t0) evs).2 a (a + W)
      ≤ 2 * cap := by
  have hcapQ : (1 : ℚ) ≤ ((cap : ℕ) : ℚ) := by exact_mod_cast hcap
  have hco : ConfigOK (RateLimiter.init ((cap : ℕ) : ℚ) W t0) := ⟨hcapQ, hW, rfl⟩
  have htok : TokOK (RateLimiter.init ((cap : ℕ) : ℚ) W t0) :=
    ⟨by simp [RateLimiter.init], le_refl _⟩
  have hpd : PendOK (RateLimiter.init ((cap : ℕ) : ℚ) W t0) := by
    intro p hp
    simp [RateLimiter.init] at hp
  have hrnn : 0 ≤ ((cap : ℕ) : ℚ) / W := by positivity
  have hacc : AccOK a (a + W) (RateLimiter.init ((cap : ℕ) : ℚ) W t0) 0 := by
    refine ⟨fun _ => rfl, fun _ => ?_, fun _ => ?_⟩
    · show (0 : ℚ) + ((cap : ℕ) : ℚ) ≤ ((cap : ℕ) : ℚ) + ((cap : ℕ) : ℚ) / W * max 0 (t0 - a)
      have : 0 ≤ ((cap : ℕ) : ℚ) / W * max 0 (t0 - a) :=
        mul_nonneg hrnn (le_max_left _ _)
      linarith
    · show (0 : ℚ) ≤ ((cap : ℕ) : ℚ) + ((cap : ℕ) : ℚ) / W * max 0 (a + W - a)
      have : 0 ≤ ((cap : ℕ) : ℚ) / W * max 0 (a + W - a) :=
        mul_nonneg hrnn (le_max_left _ _)
      positivity
  have hmain := runL_inv a (a + W) evs (RateLimiter.init ((cap : ℕ) : ℚ) W t0) 0
    hwf hco htok hpd hacc
  have hflds := runL_fields evs (RateLimiter.init ((cap : ℕ) : ℚ) W t0)
  obtain ⟨⟨htk0, _⟩, hacc1, hacc2, hacc3⟩ := hmain
  rw [Nat.zero_add] at hacc2 hacc3
  have hM : (runL (RateLimiter.init ((cap : ℕ) : ℚ) W t0) evs).1.maxTokens
      = ((cap : ℕ) : ℚ) := hflds.1
  have hR : (runL (RateLimiter.init ((cap : ℕ) : ℚ) W t0) evs).1.refillRate
      = ((cap : ℕ) : ℚ) / W := hflds.2
  have hWa : a + W - a = W := by ring
  have hmaxW : max 0 W = W := max_eq_right (le_of_lt hW)
  have hcancel : ((cap : ℕ) : ℚ) / W * W = ((cap : ℕ) : ℚ) :=
    div_mul_cancel₀ _ (ne_of_gt hW)
  have hfinal : ((countWindow (runL (RateLimiter.init ((cap : ℕ) : ℚ) W t0) evs).2
      a (a + W) : ℕ) : ℚ) ≤ 2 * ((cap : ℕ) : ℚ) := by
    rcases le_or_lt (runL (RateLimiter.init ((cap : ℕ) : ℚ) W t0) evs).1.lastRefill
        (a + W) with hlb | hlb
    · have h2 := hacc2 hlb
      rw [hM, hR] at h2
      have hmono : max 0
          ((runL (RateLimiter.init ((cap : ℕ) : ℚ) W t0) evs).1.lastRefill - a)
          ≤ max 0 W := max_le_max (le_refl 0) (by linarith)
      have hprod : ((cap : ℕ) : ℚ) / W * max 0
          ((runL (RateLimiter.init ((cap : ℕ) : ℚ) W t0) evs).1.lastRefill - a)
          ≤ ((cap : ℕ) : ℚ) / W * max 0 W :=
        mul_le_mul_of_nonneg_left hmono hrnn
      rw [hmaxW, hcancel] at hprod
      linarith
    · have h3 := hacc3 hlb
      rw [hM, hR, hWa, hmaxW, hcancel] at h3
      linarith
  exact_mod_cast hfinal

/-- C1 amended witness: the 2-times-capacity bound applied to a concrete
well-formed trace on a `RateLimiter(2, 10)`. -/
theorem c1_bounded_rate_amended_witness :
    (1 ≤ 2 ∧ (0 : ℚ) < 10 ∧
      WFb (RateLimiter.init ((2 : ℕ) : ℚ) 10 0) [LEv.acqA 0] = true) ∧
    countWindow (runL (RateLimiter.init ((2 : ℕ) : ℚ) 10 0) [LEv.acqA 0]).2 0 (0 + 10)
      ≤ 2 * 2 :=
  ⟨⟨by decide, by decide, by simp [WFb, RateLimiter.init]⟩,
    c1_bounded_rate_amended 2 10 0 0 [LEv.acqA 0] (by decide) (by decide)
      (by simp [WFb, RateLimiter.init])⟩
